import Mathlib

/-!
The header `wasm-build/sdk/sysfix/__header_sys_resource.h`.

The file under study is a C header of twenty lines: an include guard, one
`#include`, two object-like `#define`s and an `extern "C"` region whose
braces each stand under `#ifdef __cplusplus`.  Its behaviour is what the C
preprocessor does with those lines, so the development consists of

* the preprocessing tokens and the directive lines the header is made of,
* the header itself, line by line (`header`),
* the part of translation phase 4 those lines exercise: conditional
  inclusion, `#define`, `#include`, and the emission of text lines after
  replacement of object-like names (`step`, `run`, `preprocess`),
* the properties of `preprocess … header`.

`<__struct_rusage.h>` is not part of the repository.  What it does when it
is included is a parameter (`Includer`) of everything below.
-/

namespace Sysfix

/-! ## Tokens and lines -/

/-- Preprocessing tokens.  In translation phase 4 a keyword such as
`extern` is an identifier like any other and is replaced when a macro of
that name is defined.  The two braces have constructors of their own;
`punct` is any other punctuator. -/
inductive Tok where
  | ident (name : String)
  | number (value : Nat)
  | strLit (chars : String)
  | lbrace
  | rbrace
  | punct (spelling : String)
  deriving DecidableEq

/-- The lines of a source file after translation phase 3: a directive, a
line of text, a line holding only a comment, or an empty line.  Only the
directives the header uses are represented. -/
inductive Line where
  | ifndef (name : String)
  | ifdef (name : String)
  | endif
  | define (name : String) (body : List Tok)
  | incl (file : String)
  | text (toks : List Tok)
  | comment (chars : String)
  | blank
  deriving DecidableEq

/-- The include guard of the header. -/
def guardName : String := "__wasilibc___header_sys_resource_h"

/-- The file named by the header's only `#include`. -/
def structHeader : String := "__struct_rusage.h"

/-- The header `__header_sys_resource.h`, one entry per source line. -/
def header : List Line :=
  [ Line.ifndef "__wasilibc___header_sys_resource_h"     -- 1  #ifndef __wasilibc___header_sys_resource_h
  , Line.define "__wasilibc___header_sys_resource_h" []  -- 2  #define __wasilibc___header_sys_resource_h
  , Line.blank                                           -- 3
  , Line.incl "__struct_rusage.h"                        -- 4  #include <__struct_rusage.h>
  , Line.blank                                           -- 5
  , Line.define "RUSAGE_SELF" [Tok.number 1]             -- 6  #define RUSAGE_SELF 1
  , Line.define "RUSAGE_CHILDREN" [Tok.number 2]         -- 7  #define RUSAGE_CHILDREN 2
  , Line.blank                                           -- 8
  , Line.ifdef "__cplusplus"                             -- 9  #ifdef __cplusplus
  , Line.text [Tok.ident "extern", Tok.strLit "C", Tok.lbrace]  -- 10 extern "C" and the opening brace
  , Line.endif                                           -- 11 #endif
  , Line.blank                                           -- 12
  , Line.comment "// getrusage declaration is provided by patch.h (force-included)"   -- 13
  , Line.comment "// to avoid conflicting types with the void* stub implementation."  -- 14
  , Line.blank                                           -- 15
  , Line.ifdef "__cplusplus"                             -- 16 #ifdef __cplusplus
  , Line.text [Tok.rbrace]                               -- 17 the closing brace
  , Line.endif                                           -- 18 #endif
  , Line.blank                                           -- 19
  , Line.endif                                           -- 20 #endif (the file ends here, without a newline)
  ]

/-! ## The table of definitions -/

/-- The definitions in force: name and replacement list, most recent
first.  Only object-like definitions occur in the header. -/
abbrev Table := List (String × List Tok)

/-- The replacement list a name currently has, if it is defined. -/
def defn : Table → String → Option (List Tok)
  | [], _ => none
  | (k, body) :: rest, n => if k = n then some body else defn rest n

/-- Whether a name is currently defined (`#ifdef`). -/
def isDefined (t : Table) (n : String) : Bool := (defn t n).isSome

/-- Whether `#define n body` clashes with a definition already in force:
the name is defined and its replacement list is a different one (C11
6.10.3p2; a definition repeated with the same list is permitted). -/
def clashes (t : Table) (n : String) (body : List Tok) : Bool :=
  match defn t n with
  | some old => decide (old ≠ body)
  | none => false

/-- Replacement of object-like names in a token sequence.  A name is not
replaced again inside its own replacement (`hide`); `fuel` bounds the
nesting of replacements. -/
def expandAux (t : Table) : Nat → List String → List Tok → List Tok
  | 0, _, toks => toks
  | fuel + 1, hide, toks =>
    (toks.map fun tok =>
      match tok with
      | .ident n =>
        if n ∈ hide then [tok]
        else match defn t n with
          | some body => expandAux t fuel (n :: hide) body
          | none => [tok]
      | _ => [tok]).flatten

/-- Full replacement.  Every nested replacement hides one more defined
name, so the nesting never exceeds the number of entries of the table. -/
def expand (t : Table) (toks : List Tok) : List Tok :=
  expandAux t (t.length + 1) [] toks

/-- The defined names that can still be replaced when those in `hide`
cannot. -/
def replaceable (t : Table) (hide : List String) : List String :=
  ((t.map Prod.fst).dedup).filter (fun k => decide (k ∉ hide))

/-- The value of a token sequence that is a single integer constant. -/
def intValue : List Tok → Option Int
  | [.number n] => some (n : Int)
  | _ => none

/-! ## Phase 4 -/

/-- What an included file does: given the table in force when it is
entered, the table it leaves and the tokens it expands to. -/
abbrev Includer := String → Table → Table × List Tok

/-- What processing a file does, in order. -/
inductive Event where
  | defined (name : String) (body : List Tok) (clash : Bool)
  | included (file : String) (toks : List Tok)
  | token (t : Tok)
  deriving DecidableEq

/-- The state while a file is processed: the table, the conditional
groups that are open (innermost first, `true` for a group whose condition
held) and the events so far. -/
structure PP where
  defs : Table
  conds : List Bool
  out : List Event

/-- Lines are processed only when every open group is one whose condition
held. -/
def active (conds : List Bool) : Bool := conds.all id

/-- One line. `none` is an `#endif` without an open group. -/
def step (inc : Includer) (s : PP) : Line → Option PP
  | .ifndef n =>
    some { s with conds := (active s.conds && !isDefined s.defs n) :: s.conds }
  | .ifdef n =>
    some { s with conds := (active s.conds && isDefined s.defs n) :: s.conds }
  | .endif =>
    match s.conds with
    | [] => none
    | _ :: cs => some { s with conds := cs }
  | .define n body =>
    if active s.conds then
      some { s with defs := (n, body) :: s.defs
                    out := s.out ++ [.defined n body (clashes s.defs n body)] }
    else some s
  | .incl f =>
    if active s.conds then
      some { s with defs := (inc f s.defs).1
                    out := s.out ++ [.included f (inc f s.defs).2] }
    else some s
  | .text toks =>
    if active s.conds then
      some { s with out := s.out ++ (expand s.defs toks).map .token }
    else some s
  | .comment _ => some s
  | .blank => some s

/-- The lines of a file, in order. -/
def run (inc : Includer) : List Line → PP → Option PP
  | [], s => some s
  | l :: ls, s =>
    match step inc s l with
    | some s1 => run inc ls s1
    | none => none

/-- Processing a whole file from a given table: the table it leaves and
its events.  `none` when the conditional directives do not balance. -/
def preprocess (inc : Includer) (file : List Line) (t : Table) :
    Option (Table × List Event) :=
  match run inc file { defs := t, conds := [], out := [] } with
  | some s => if s.conds = [] then some (s.defs, s.out) else none
  | none => none

/-- Processing a file twice in a row, as when a translation unit includes
it twice. -/
def preprocessTwice (inc : Includer) (file : List Line) (t : Table) :
    Option (Table × List Event) :=
  match preprocess inc file t with
  | some (t1, ev1) =>
    match preprocess inc file t1 with
    | some (t2, ev2) => some (t2, ev1 ++ ev2)
    | none => none
  | none => none

/-! ## Observations on the events -/

/-- The tokens the file's own text emitted. -/
def ownTokens : List Event → List Tok
  | [] => []
  | .token t :: es => t :: ownTokens es
  | _ :: es => ownTokens es

/-- The files whose inclusion was requested. -/
def includes : List Event → List String
  | [] => []
  | .included f _ :: es => f :: includes es
  | _ :: es => includes es

/-- The definitions the file's own `#define`s made. -/
def definitions : List Event → List (String × List Tok)
  | [] => []
  | .defined n body _ :: es => (n, body) :: definitions es
  | _ :: es => definitions es

/-- The identifiers among some tokens. -/
def identifiers : List Tok → List String
  | [] => []
  | .ident n :: ts => n :: identifiers ts
  | _ :: ts => identifiers ts

/-- Modelled from the spec: `<__struct_rusage.h>`, which is not in the
repository, is "a struct-definition header providing `rusage`'s layout".
The layout is not given there; this instance expands to a definition of
`struct rusage` with two `struct timeval` members and defines a guard of
its own.  It serves to instantiate the theorems, which hold for every
`Includer`. -/
def sampleIncluder : Includer := fun _ t =>
  ( ("__wasilibc___struct_rusage_h", []) :: t
  , [ .ident "struct", .ident "rusage", .lbrace
    , .ident "struct", .ident "timeval", .ident "ru_utime", .punct ";"
    , .ident "struct", .ident "timeval", .ident "ru_stime", .punct ";"
    , .rbrace, .punct ";" ] )

/-! ## Replacement always runs to completion -/

theorem mem_keys_of_defn (t : Table) (n : String) (b : List Tok) (h : defn t n = some b) :
    n ∈ t.map Prod.fst := by
  induction t with
  | nil => simp [defn] at h
  | cons p rest ih =>
    obtain ⟨k, body⟩ := p
    by_cases hk : k = n
    · simp [hk]
    · simp only [defn, hk, if_false] at h
      simp [ih h]

theorem replaceable_hide (t : Table) (hide : List String) (n : String)
    (hn : n ∈ t.map Prod.fst) (hh : n ∉ hide) :
    (replaceable t (n :: hide)).length + 1 = (replaceable t hide).length := by
  have hnd : ((t.map Prod.fst).dedup).Nodup := List.nodup_dedup _
  have hmem : n ∈ replaceable t hide := by
    simp [replaceable, hh, List.mem_dedup]
    simpa using hn
  have hnd2 : (replaceable t hide).Nodup := hnd.filter _
  have heq : replaceable t (n :: hide) = (replaceable t hide).erase n := by
    rw [hnd2.erase_eq_filter]
    simp only [replaceable, List.filter_filter]
    congr 1
    funext k
    by_cases h1 : k = n <;> by_cases h2 : k ∈ hide <;> simp [h1, h2]
  rw [heq, List.length_erase_of_mem hmem]
  have : 0 < (replaceable t hide).length := List.length_pos_of_mem hmem
  omega

theorem expandAux_fuel (t : Table) : ∀ (fuel : Nat) (hide : List String) (toks : List Tok),
    (replaceable t hide).length < fuel →
    expandAux t (fuel + 1) hide toks = expandAux t fuel hide toks := by
  intro fuel
  induction fuel with
  | zero => intro hide toks h; omega
  | succ f ih =>
    intro hide toks h
    rw [expandAux, expandAux]
    congr 1
    apply List.map_congr_left
    intro tok _
    cases tok with
    | ident n =>
      by_cases hh : n ∈ hide
      · simp [hh]
      · simp only [hh, if_false]
        cases hd : defn t n with
        | none => rfl
        | some body =>
          simp only []
          apply ih
          have := replaceable_hide t hide n (mem_keys_of_defn t n body hd) hh
          omega
    | _ => rfl

/-- The nesting bound of `expand` is never reached: more fuel changes
nothing. -/
theorem expand_fuel_suffices (t : Table) (toks : List Tok) (k : Nat) :
    expandAux t (t.length + 1 + k) [] toks = expand t toks := by
  induction k with
  | zero => rfl
  | succ k ih =>
    rw [← ih, ← Nat.add_assoc]
    apply expandAux_fuel
    have h1 : (replaceable t []).length ≤ ((t.map Prod.fst).dedup).length := List.length_filter_le _ _
    have h2 : ((t.map Prod.fst).dedup).length ≤ (t.map Prod.fst).length :=
      (List.dedup_sublist _).length_le
    simp at h2
    omega

/-! ## The two ways through the header -/

theorem defn_cons (k : String) (b : List Tok) (t : Table) (n : String) :
    defn ((k, b) :: t) n = if k = n then some b else defn t n := rfl

theorem isDefined_cons (k : String) (b : List Tok) (t : Table) (n : String) :
    isDefined ((k, b) :: t) n = (decide (k = n) || isDefined t n) := by
  by_cases h : k = n <;> simp [isDefined, defn, h]

theorem clashes_of_not_defined (t : Table) (n : String) (b : List Tok)
    (h : isDefined t n = false) : clashes t n b = false := by
  unfold isDefined at h
  unfold clashes
  cases hd : defn t n with
  | none => rfl
  | some old => simp [hd] at h

theorem expand_rbrace (t : Table) : expand t [.rbrace] = [.rbrace] := by
  simp [expand, expandAux]

/-- Line 10 is emitted as written when no macro named `extern` is defined. -/
theorem expand_line10 (t : Table) (h : isDefined t "extern" = false) :
    expand t [.ident "extern", .strLit "C", .lbrace] =
      [.ident "extern", .strLit "C", .lbrace] := by
  have hd : defn t "extern" = none := by
    cases hd : defn t "extern" with
    | none => rfl
    | some b => simp [isDefined, hd] at h
  simp [expand, expandAux, hd]

theorem ownTokens_append (a b : List Event) :
    ownTokens (a ++ b) = ownTokens a ++ ownTokens b := by
  induction a with
  | nil => rfl
  | cons e es ih => cases e <;> simp [ownTokens, ih]

theorem includes_append (a b : List Event) :
    includes (a ++ b) = includes a ++ includes b := by
  induction a with
  | nil => rfl
  | cons e es ih => cases e <;> simp [includes, ih]

theorem definitions_append (a b : List Event) :
    definitions (a ++ b) = definitions a ++ definitions b := by
  induction a with
  | nil => rfl
  | cons e es ih => cases e <;> simp [definitions, ih]

theorem ownTokens_tokens (l : List Tok) : ownTokens (l.map .token) = l := by
  induction l with
  | nil => rfl
  | cons x xs ih => simp [ownTokens, ih]

theorem includes_tokens (l : List Tok) : includes (l.map .token) = [] := by
  induction l with
  | nil => rfl
  | cons x xs ih => simp [includes, ih]

theorem definitions_tokens (l : List Tok) : definitions (l.map .token) = [] := by
  induction l with
  | nil => rfl
  | cons x xs ih => simp [definitions, ih]

/-- A first inclusion: the guard is defined, the struct header is included,
the two constants are defined, and, when `__cplusplus` is defined at that
point, line 10 is emitted after replacement, followed by the closing brace
of line 17. -/
theorem preprocess_header_first (inc : Includer) (t : Table) (h : isDefined t guardName = false) :
    preprocess inc header t = some
      ( ("RUSAGE_CHILDREN", [.number 2]) :: ("RUSAGE_SELF", [.number 1]) ::
          (inc structHeader ((guardName, []) :: t)).1
      , [ .defined guardName [] false
        , .included structHeader (inc structHeader ((guardName, []) :: t)).2
        , .defined "RUSAGE_SELF" [.number 1]
            (clashes (inc structHeader ((guardName, []) :: t)).1 "RUSAGE_SELF" [.number 1])
        , .defined "RUSAGE_CHILDREN" [.number 2]
            (clashes (("RUSAGE_SELF", [.number 1]) ::
              (inc structHeader ((guardName, []) :: t)).1) "RUSAGE_CHILDREN" [.number 2]) ] ++
        ((if isDefined (inc structHeader ((guardName, []) :: t)).1 "__cplusplus" then
          expand (("RUSAGE_CHILDREN", [.number 2]) :: ("RUSAGE_SELF", [.number 1]) ::
            (inc structHeader ((guardName, []) :: t)).1)
            [.ident "extern", .strLit "C", .lbrace] ++ [.rbrace]
         else []).map .token) ) := by
  have h1 : isDefined t "__wasilibc___header_sys_resource_h" = false := h
  have h2 : clashes t "__wasilibc___header_sys_resource_h" [] = false :=
    clashes_of_not_defined _ _ _ h
  cases hc : isDefined (inc "__struct_rusage.h" (("__wasilibc___header_sys_resource_h", []) :: t)).1
      "__cplusplus" <;>
    simp [preprocess, header, run, step, active, h1, h2, hc, guardName, structHeader,
      expand_rbrace, isDefined_cons]

/-- An inclusion under a defined guard skips every line. -/
theorem preprocess_header_guarded (inc : Includer) (t : Table) (h : isDefined t guardName = true) :
    preprocess inc header t = some (t, []) := by
  have h1 : isDefined t "__wasilibc___header_sys_resource_h" = true := h
  simp [preprocess, header, run, step, active, h1]

/-! ## Properties of the header -/

/-- C1. After the header is preprocessed for the first time (its guard is
not defined), whatever else the table holds (so with `__cplusplus` defined
or not) and whatever the struct header does, `RUSAGE_SELF` has the
replacement list `1` and expands to the integer constant `1`, and
`RUSAGE_CHILDREN` has the replacement list `2` and expands to `2`. -/
theorem rusage_constants_expand (inc : Includer) (t : Table)
    (hfirst : isDefined t guardName = false) :
    ∃ t1 ev, preprocess inc header t = some (t1, ev) ∧
      defn t1 "RUSAGE_SELF" = some [.number 1] ∧
      expand t1 [.ident "RUSAGE_SELF"] = [.number 1] ∧
      defn t1 "RUSAGE_CHILDREN" = some [.number 2] ∧
      expand t1 [.ident "RUSAGE_CHILDREN"] = [.number 2] := by
  refine ⟨_, _, preprocess_header_first inc t hfirst, ?_, ?_, ?_, ?_⟩ <;>
    simp [defn, expand, expandAux]

theorem rusage_constants_expand_witness :
    isDefined [("__cplusplus", [.number 201703])] guardName = false ∧
    ∃ t1 ev, preprocess sampleIncluder header [("__cplusplus", [.number 201703])] = some (t1, ev) ∧
      defn t1 "RUSAGE_SELF" = some [.number 1] ∧
      expand t1 [.ident "RUSAGE_SELF"] = [.number 1] ∧
      defn t1 "RUSAGE_CHILDREN" = some [.number 2] ∧
      expand t1 [.ident "RUSAGE_CHILDREN"] = [.number 2] :=
  ⟨by decide, rusage_constants_expand sampleIncluder _ (by decide)⟩

/-- C2. Inclusion is idempotent.  An inclusion performed while the guard
is defined leaves the table as it is and has no event at all: no token, no
`#include`, no definition, hence no redefinition.  Provided the struct
header does not undefine the guard, a first inclusion from any table
leaves the guard defined, and including the header twice gives the same
table and the same events as including it once. -/
theorem inclusion_idempotent (inc : Includer) (t : Table)
    (hinc : ∀ u, isDefined u guardName = true →
      isDefined (inc structHeader u).1 guardName = true) :
    (∀ u, isDefined u guardName = true → preprocess inc header u = some (u, [])) ∧
    ∃ t1 ev1, preprocess inc header t = some (t1, ev1) ∧
      isDefined t1 guardName = true ∧
      preprocessTwice inc header t = some (t1, ev1) := by
  refine ⟨fun u hu => preprocess_header_guarded inc u hu, ?_⟩
  cases hg : isDefined t guardName with
  | true =>
    refine ⟨t, [], preprocess_header_guarded inc t hg, hg, ?_⟩
    simp [preprocessTwice, preprocess_header_guarded inc t hg]
  | false =>
    have hentry : isDefined ((guardName, []) :: t) guardName = true := by
      simp [isDefined_cons]
    have hleft : isDefined (("RUSAGE_CHILDREN", [.number 2]) :: ("RUSAGE_SELF", [.number 1]) ::
        (inc structHeader ((guardName, []) :: t)).1) guardName = true := by
      simp [isDefined_cons, hinc _ hentry]
    refine ⟨_, _, preprocess_header_first inc t hg, hleft, ?_⟩
    simp [preprocessTwice, preprocess_header_first inc t hg,
      preprocess_header_guarded inc _ hleft]

theorem inclusion_idempotent_witness :
    (∀ u, isDefined u guardName = true →
      isDefined (sampleIncluder structHeader u).1 guardName = true) ∧
    ((∀ u, isDefined u guardName = true → preprocess sampleIncluder header u = some (u, [])) ∧
    ∃ t1 ev1, preprocess sampleIncluder header [("__cplusplus", [.number 201703])] = some (t1, ev1) ∧
      isDefined t1 guardName = true ∧
      preprocessTwice sampleIncluder header [("__cplusplus", [.number 201703])] = some (t1, ev1)) :=
  ⟨fun u hu => by simpa [sampleIncluder, isDefined_cons] using Or.inr hu,
   inclusion_idempotent sampleIncluder _
    (fun u hu => by simpa [sampleIncluder, isDefined_cons] using Or.inr hu)⟩

/-- C3, amended.  Provided no macro named `extern` is defined, neither
in the initial table nor by the struct header, the header's own text
declares nothing, in C and in C++ mode, on a first or a repeated
inclusion: the tokens its own lines emit are either none or `extern "C"`
with an empty brace pair; the only identifier among them is the keyword
`extern`, so no function, variable or type is named, and `getrusage` does
not occur. -/
theorem own_text_declares_nothing (inc : Includer) (t : Table)
    (hext : isDefined t "extern" = false)
    (hinc : ∀ u, isDefined u "extern" = false →
      isDefined (inc structHeader u).1 "extern" = false) :
    ∃ t1 ev, preprocess inc header t = some (t1, ev) ∧
      (ownTokens ev = [] ∨
        ownTokens ev = [.ident "extern", .strLit "C", .lbrace, .rbrace]) ∧
      (∀ n ∈ identifiers (ownTokens ev), n = "extern") ∧
      Tok.ident "getrusage" ∉ ownTokens ev := by
  cases hg : isDefined t guardName with
  | true =>
    exact ⟨t, [], preprocess_header_guarded inc t hg, by simp [ownTokens],
      by simp [ownTokens, identifiers], by simp [ownTokens]⟩
  | false =>
    have hentry : isDefined ((guardName, []) :: t) "extern" = false := by
      simp [isDefined_cons, hext, guardName]
    have hline : isDefined (("RUSAGE_CHILDREN", [.number 2]) :: ("RUSAGE_SELF", [.number 1]) ::
        (inc structHeader ((guardName, []) :: t)).1) "extern" = false := by
      simp [isDefined_cons, hinc _ hentry]
    refine ⟨_, _, preprocess_header_first inc t hg, ?_, ?_, ?_⟩ <;>
      rw [expand_line10 _ hline] <;>
      cases isDefined (inc structHeader ((guardName, []) :: t)).1 "__cplusplus" <;>
      simp [ownTokens, identifiers]

theorem own_text_declares_nothing_witness :
    isDefined [("__cplusplus", [.number 201703])] "extern" = false ∧
    (∀ u, isDefined u "extern" = false →
      isDefined (sampleIncluder structHeader u).1 "extern" = false) ∧
    ∃ t1 ev, preprocess sampleIncluder header [("__cplusplus", [.number 201703])] = some (t1, ev) ∧
      (ownTokens ev = [] ∨
        ownTokens ev = [.ident "extern", .strLit "C", .lbrace, .rbrace]) ∧
      (∀ n ∈ identifiers (ownTokens ev), n = "extern") ∧
      Tok.ident "getrusage" ∉ ownTokens ev :=
  ⟨by decide, fun u hu => by simpa [sampleIncluder, isDefined_cons] using hu,
   own_text_declares_nothing sampleIncluder _ (by decide)
    (fun u hu => by simpa [sampleIncluder, isDefined_cons] using hu)⟩

/-- C3 as stated fails.  In C++ mode, from a table in which `extern` is a
macro whose replacement list is `int getrusage(int, void *); extern`,
line 10 of the header is emitted as a declaration of `getrusage` followed
by the linkage region. -/
theorem own_text_declaration_counterexample :
    ∃ t1 ev,
      preprocess sampleIncluder header
        [ ("extern", [ .ident "int", .ident "getrusage", .punct "(", .ident "int", .punct ","
                     , .ident "void", .punct "*", .punct ")", .punct ";", .ident "extern" ])
        , ("__cplusplus", [.number 201703]) ] = some (t1, ev) ∧
      ownTokens ev =
        [ .ident "int", .ident "getrusage", .punct "(", .ident "int", .punct ","
        , .ident "void", .punct "*", .punct ")", .punct ";"
        , .ident "extern", .strLit "C", .lbrace, .rbrace ] ∧
      Tok.ident "getrusage" ∈ ownTokens ev ∧
      "getrusage" ∈ identifiers (ownTokens ev) := by
  refine ⟨_, _, rfl, ?_, ?_, ?_⟩ <;> decide

/-- C4, amended.  On a first inclusion, and provided the struct header
leaves `__cplusplus` as it finds it and defines no macro named `extern`:
when `__cplusplus` is defined and no macro named `extern` is, the header's
own text emits exactly `extern "C"`, an opening brace and at once the
closing brace; when `__cplusplus` is not defined it emits no token at
all. -/
theorem linkage_region_well_formed (inc : Includer) (t : Table)
    (hmode : ∀ u, isDefined (inc structHeader u).1 "__cplusplus" = isDefined u "__cplusplus")
    (hinc : ∀ u, isDefined u "extern" = false →
      isDefined (inc structHeader u).1 "extern" = false)
    (hfirst : isDefined t guardName = false) :
    ∃ t1 ev, preprocess inc header t = some (t1, ev) ∧
      (isDefined t "__cplusplus" = true → isDefined t "extern" = false →
        ownTokens ev = [.ident "extern", .strLit "C", .lbrace, .rbrace]) ∧
      (isDefined t "__cplusplus" = false → ownTokens ev = []) := by
  have hc : isDefined (inc structHeader ((guardName, []) :: t)).1 "__cplusplus" =
      isDefined t "__cplusplus" := by
    rw [hmode]; simp [isDefined_cons, guardName]
  refine ⟨_, _, preprocess_header_first inc t hfirst, ?_, ?_⟩
  · intro h hext
    have hentry : isDefined ((guardName, []) :: t) "extern" = false := by
      simp [isDefined_cons, hext, guardName]
    have hline : isDefined (("RUSAGE_CHILDREN", [.number 2]) :: ("RUSAGE_SELF", [.number 1]) ::
        (inc structHeader ((guardName, []) :: t)).1) "extern" = false := by
      simp [isDefined_cons, hinc _ hentry]
    rw [expand_line10 _ hline]
    simp [hc, h, ownTokens]
  · intro h
    simp [hc, h, ownTokens]

theorem linkage_region_well_formed_witness :
    (∀ u, isDefined (sampleIncluder structHeader u).1 "__cplusplus" =
      isDefined u "__cplusplus") ∧
    (∀ u, isDefined u "extern" = false →
      isDefined (sampleIncluder structHeader u).1 "extern" = false) ∧
    isDefined [("__cplusplus", [.number 201703])] guardName = false ∧
    ∃ t1 ev, preprocess sampleIncluder header [("__cplusplus", [.number 201703])] = some (t1, ev) ∧
      (isDefined [("__cplusplus", [.number 201703])] "__cplusplus" = true →
        isDefined [("__cplusplus", [.number 201703])] "extern" = false →
        ownTokens ev = [.ident "extern", .strLit "C", .lbrace, .rbrace]) ∧
      (isDefined [("__cplusplus", [.number 201703])] "__cplusplus" = false →
        ownTokens ev = []) :=
  ⟨fun u => by simp [sampleIncluder, isDefined_cons],
   fun u hu => by simpa [sampleIncluder, isDefined_cons] using hu, by decide,
   linkage_region_well_formed sampleIncluder _
    (fun u => by simp [sampleIncluder, isDefined_cons])
    (fun u hu => by simpa [sampleIncluder, isDefined_cons] using hu) (by decide)⟩

/-- C4 as stated fails twice over.  With `__cplusplus` defined and a macro
named `extern` whose replacement list is `static`, a first inclusion emits
`static "C"` and the two braces, not `extern "C"`.  With `__cplusplus`
and the guard both defined, the inclusion emits no token. -/
theorem linkage_region_counterexample :
    (isDefined [("extern", [.ident "static"]), ("__cplusplus", [.number 201703])]
        "__cplusplus" = true ∧
      ∃ t1 ev,
        preprocess sampleIncluder header
          [("extern", [.ident "static"]), ("__cplusplus", [.number 201703])] = some (t1, ev) ∧
        ownTokens ev = [.ident "static", .strLit "C", .lbrace, .rbrace] ∧
        ownTokens ev ≠ [.ident "extern", .strLit "C", .lbrace, .rbrace]) ∧
    (isDefined [(guardName, []), ("__cplusplus", [.number 201703])] "__cplusplus" = true ∧
      ∃ t1 ev,
        preprocess sampleIncluder header
          [(guardName, []), ("__cplusplus", [.number 201703])] = some (t1, ev) ∧
        ownTokens ev = [] ∧
        ownTokens ev ≠ [.ident "extern", .strLit "C", .lbrace, .rbrace]) := by
  refine ⟨⟨by decide, _, _, rfl, ?_, ?_⟩, ⟨by decide, _, _, rfl, ?_, ?_⟩⟩ <;> decide

/-- C5, amended.  On a first inclusion the header's own `#define`s are
exactly three, in either language mode: the guard (empty), `RUSAGE_SELF`
as `1` and `RUSAGE_CHILDREN` as `2`.  The table it leaves holds the two
constants with these replacement lists and agrees everywhere else with the
table the struct header left, the struct header having been entered with
the initial table plus the guard.  So the table differs from the initial
one in at most these three names, apart from what the struct header does:
`RUSAGE_SELF` differs exactly when it was not already defined as `1`,
`RUSAGE_CHILDREN` exactly when it was not already defined as `2`, and, for
names the struct header leaves alone, the guard differs (undefined before,
empty now) and every name other than the three is as it was. -/
theorem table_footprint (inc : Includer) (t : Table)
    (hfirst : isDefined t guardName = false) :
    ∃ t1 ev, preprocess inc header t = some (t1, ev) ∧
      definitions ev =
        [(guardName, []), ("RUSAGE_SELF", [.number 1]), ("RUSAGE_CHILDREN", [.number 2])] ∧
      defn t1 "RUSAGE_SELF" = some [.number 1] ∧
      defn t1 "RUSAGE_CHILDREN" = some [.number 2] ∧
      (defn t1 "RUSAGE_SELF" ≠ defn t "RUSAGE_SELF" ↔
        defn t "RUSAGE_SELF" ≠ some [.number 1]) ∧
      (defn t1 "RUSAGE_CHILDREN" ≠ defn t "RUSAGE_CHILDREN" ↔
        defn t "RUSAGE_CHILDREN" ≠ some [.number 2]) ∧
      (∀ n, n ≠ "RUSAGE_SELF" → n ≠ "RUSAGE_CHILDREN" →
        defn t1 n = defn (inc structHeader ((guardName, []) :: t)).1 n) ∧
      ((∀ u, defn (inc structHeader u).1 guardName = defn u guardName) →
        defn t guardName = none ∧ defn t1 guardName = some []) ∧
      (∀ n, n ≠ guardName → n ≠ "RUSAGE_SELF" → n ≠ "RUSAGE_CHILDREN" →
        (∀ u, defn (inc structHeader u).1 n = defn u n) → defn t1 n = defn t n) := by
  have hnone : defn t guardName = none := by
    cases hd : defn t guardName with
    | none => rfl
    | some b => simp [isDefined, hd] at hfirst
  refine ⟨_, _, preprocess_header_first inc t hfirst, ?_, ?_, ?_, ?_, ?_, ?_, ?_, ?_⟩
  · cases isDefined (inc structHeader ((guardName, []) :: t)).1 "__cplusplus" <;>
      simp [definitions, definitions_append, definitions_tokens]
  · simp [defn]
  · simp [defn]
  · simp only [defn_cons, if_neg (by decide : ¬ "RUSAGE_CHILDREN" = "RUSAGE_SELF"), if_pos]
    exact ⟨fun h e => h e.symm, fun h e => h e.symm⟩
  · simp only [defn_cons, if_pos]
    exact ⟨fun h e => h e.symm, fun h e => h e.symm⟩
  · intro n h1 h2
    simp [defn, Ne.symm h1, Ne.symm h2]
  · intro hu
    have h1 : defn (inc structHeader ((guardName, []) :: t)).1 guardName = some [] := by
      rw [hu]; simp [defn_cons]
    refine ⟨hnone, ?_⟩
    rw [defn_cons, if_neg (by decide), defn_cons, if_neg (by decide)]
    exact h1
  · intro n h0 h1 h2 hu
    simp [defn_cons, hu, Ne.symm h0, Ne.symm h1, Ne.symm h2]

theorem table_footprint_witness :
    isDefined [("__cplusplus", [.number 201703])] guardName = false ∧
    ∃ t1 ev, preprocess sampleIncluder header [("__cplusplus", [.number 201703])] = some (t1, ev) ∧
      definitions ev =
        [(guardName, []), ("RUSAGE_SELF", [.number 1]), ("RUSAGE_CHILDREN", [.number 2])] ∧
      defn t1 "RUSAGE_SELF" = some [.number 1] ∧
      defn t1 "RUSAGE_CHILDREN" = some [.number 2] ∧
      (defn t1 "RUSAGE_SELF" ≠ defn [("__cplusplus", [.number 201703])] "RUSAGE_SELF" ↔
        defn [("__cplusplus", [.number 201703])] "RUSAGE_SELF" ≠ some [.number 1]) ∧
      (defn t1 "RUSAGE_CHILDREN" ≠ defn [("__cplusplus", [.number 201703])] "RUSAGE_CHILDREN" ↔
        defn [("__cplusplus", [.number 201703])] "RUSAGE_CHILDREN" ≠ some [.number 2]) ∧
      (∀ n, n ≠ "RUSAGE_SELF" → n ≠ "RUSAGE_CHILDREN" →
        defn t1 n = defn (sampleIncluder structHeader
          ((guardName, []) :: [("__cplusplus", [.number 201703])])).1 n) ∧
      ((∀ u, defn (sampleIncluder structHeader u).1 guardName = defn u guardName) →
        defn [("__cplusplus", [.number 201703])] guardName = none ∧
        defn t1 guardName = some []) ∧
      (∀ n, n ≠ guardName → n ≠ "RUSAGE_SELF" → n ≠ "RUSAGE_CHILDREN" →
        (∀ u, defn (sampleIncluder structHeader u).1 n = defn u n) →
        defn t1 n = defn [("__cplusplus", [.number 201703])] n) :=
  ⟨by decide, table_footprint sampleIncluder _ (by decide)⟩

/-- C5 as stated fails.  From a table in which the guard is undefined and
`RUSAGE_SELF` and `RUSAGE_CHILDREN` are already defined as `1` and `2`, a
first inclusion leaves both names with the definition they had: the table
differs from the initial one at the guard and, through the struct header,
at the struct header's own guard, and at no other name. -/
theorem table_footprint_counterexample :
    isDefined [("RUSAGE_SELF", [.number 1]), ("RUSAGE_CHILDREN", [.number 2])] guardName
      = false ∧
    ∃ t1 ev,
      preprocess sampleIncluder header
        [("RUSAGE_SELF", [.number 1]), ("RUSAGE_CHILDREN", [.number 2])] = some (t1, ev) ∧
      defn t1 "RUSAGE_SELF" =
        defn [("RUSAGE_SELF", [.number 1]), ("RUSAGE_CHILDREN", [.number 2])] "RUSAGE_SELF" ∧
      defn t1 "RUSAGE_CHILDREN" =
        defn [("RUSAGE_SELF", [.number 1]), ("RUSAGE_CHILDREN", [.number 2])]
          "RUSAGE_CHILDREN" ∧
      defn t1 guardName ≠
        defn [("RUSAGE_SELF", [.number 1]), ("RUSAGE_CHILDREN", [.number 2])] guardName ∧
      ∀ n, defn t1 n ≠
          defn [("RUSAGE_SELF", [.number 1]), ("RUSAGE_CHILDREN", [.number 2])] n →
        n = guardName ∨ n = "__wasilibc___struct_rusage_h" := by
  refine ⟨by decide,
    [ ("RUSAGE_CHILDREN", [.number 2]), ("RUSAGE_SELF", [.number 1])
    , ("__wasilibc___struct_rusage_h", []), (guardName, [])
    , ("RUSAGE_SELF", [.number 1]), ("RUSAGE_CHILDREN", [.number 2]) ],
    _, rfl, by decide, by decide, by decide, ?_⟩
  intro n hn
  by_contra hcon
  simp only [not_or] at hcon
  apply hn
  simp only [guardName] at hcon
  by_cases h2 : "RUSAGE_SELF" = n
  · subst h2; decide
  · by_cases h1 : "RUSAGE_CHILDREN" = n
    · subst h1; decide
    · simp [defn, guardName, h1, h2, Ne.symm hcon.1, Ne.symm hcon.2]

/-- C6. On a first inclusion the header includes `<__struct_rusage.h>`
exactly once and no other file, whether or not `__cplusplus` is defined.
The events are, in order: the guard is defined, the struct header is
included, `RUSAGE_SELF` is defined, `RUSAGE_CHILDREN` is defined, and only
then come the tokens of the header's own text. -/
theorem struct_header_included_once_first (inc : Includer) (t : Table)
    (hfirst : isDefined t guardName = false) :
    ∃ t1 ev toks c1 c2, preprocess inc header t = some (t1, ev) ∧
      includes ev = ["__struct_rusage.h"] ∧
      ev = [ .defined guardName [] false
           , .included "__struct_rusage.h" toks
           , .defined "RUSAGE_SELF" [.number 1] c1
           , .defined "RUSAGE_CHILDREN" [.number 2] c2 ] ++
           (ownTokens ev).map .token := by
  refine ⟨_, _, (inc structHeader ((guardName, []) :: t)).2,
    clashes (inc structHeader ((guardName, []) :: t)).1 "RUSAGE_SELF" [.number 1],
    clashes (("RUSAGE_SELF", [.number 1]) :: (inc structHeader ((guardName, []) :: t)).1)
      "RUSAGE_CHILDREN" [.number 2],
    preprocess_header_first inc t hfirst, ?_, ?_⟩ <;>
    simp [includes, ownTokens, structHeader, includes_append, includes_tokens,
      ownTokens_append, ownTokens_tokens]

theorem struct_header_included_once_first_witness :
    isDefined [("__cplusplus", [.number 201703])] guardName = false ∧
    ∃ t1 ev toks c1 c2,
      preprocess sampleIncluder header [("__cplusplus", [.number 201703])] = some (t1, ev) ∧
      includes ev = ["__struct_rusage.h"] ∧
      ev = [ .defined guardName [] false
           , .included "__struct_rusage.h" toks
           , .defined "RUSAGE_SELF" [.number 1] c1
           , .defined "RUSAGE_CHILDREN" [.number 2] c2 ] ++
           (ownTokens ev).map .token :=
  ⟨by decide, struct_header_included_once_first sampleIncluder _ (by decide)⟩

/-- C7. The two selectors are distinguishable.  After a first inclusion
`RUSAGE_SELF` and `RUSAGE_CHILDREN` each expand to a single integer
constant; the two values are different and both are strictly positive. -/
theorem selectors_distinct_positive (inc : Includer) (t : Table)
    (hfirst : isDefined t guardName = false) :
    ∃ t1 ev, preprocess inc header t = some (t1, ev) ∧
      ∃ self children : Int,
        intValue (expand t1 [.ident "RUSAGE_SELF"]) = some self ∧
        intValue (expand t1 [.ident "RUSAGE_CHILDREN"]) = some children ∧
        self ≠ children ∧ 0 < self ∧ 0 < children := by
  refine ⟨_, _, preprocess_header_first inc t hfirst, 1, 2, ?_, ?_, ?_, ?_, ?_⟩ <;>
    simp [defn, expand, expandAux, intValue]

theorem selectors_distinct_positive_witness :
    isDefined [] guardName = false ∧
    ∃ t1 ev, preprocess sampleIncluder header [] = some (t1, ev) ∧
      ∃ self children : Int,
        intValue (expand t1 [.ident "RUSAGE_SELF"]) = some self ∧
        intValue (expand t1 [.ident "RUSAGE_CHILDREN"]) = some children ∧
        self ≠ children ∧ 0 < self ∧ 0 < children :=
  ⟨by decide, selectors_distinct_positive sampleIncluder _ (by decide)⟩

end Sysfix
